import Mathlib

/-!
Verification development for the MedicaidLens repository.

The repository ships a React frontend (`frontend/src/api.js`, the page
components `Chat`, `Anomalies`, `Trends`, `CodeExplorer`, `Dashboard`) and a
Python analytics backend that is referenced from the build files but whose
source is not part of this tree.  The frontend functions are embedded here
directly from their JavaScript source; the backend components that some
claims depend on (Query Guard, Anomaly Detector, Aggregation Service) are
modelled from the specification, as marked on each definition.

Conventions of the embedding:
* JavaScript numbers are modelled as exact rationals (`ℚ`); the claims
  settled here do not hinge on binary floating-point rounding.
* `null`/`undefined`-able values are modelled with `Option`.
* JavaScript truthiness of a string (empty string is falsy) is modelled by
  the `truthyS` predicate below.
-/

namespace MedicaidLens

/-- JavaScript string truthiness: `undefined`/`null` and the empty string
are falsy, every other string is truthy. -/
def truthyS : Option String → Bool
  | some s => s ≠ ""
  | none => false

/-! ## Data model shared by the chat UI (frontend/src/pages/Chat.jsx) -/

/-- Role of a chat message. -/
inductive Role where
  | user
  | assistant
deriving DecidableEq, Repr

/-- Visualization kind carried by an assistant result
(`table | bar_chart | line_chart | number`). -/
inductive Viz where
  | table
  | bar_chart
  | line_chart
  | number
deriving DecidableEq, Repr

/-- Chart axis configuration (`chart_config`: x field, y field, title). -/
structure ChartConfig where
  x : String
  y : String
  title : Option String
deriving DecidableEq, Repr

/-- A JSON scalar appearing in a result row. -/
inductive JVal where
  | num (q : ℚ)
  | str (s : String)
  | null
deriving DecidableEq, Repr

/-- A result row: an ordered association of column keys to values, as the
backend serializes each row object. -/
abbrev ResultRow := List (String × JVal)

/-- Response body of `POST /api/chat`
(fields of `{thinking?, sql, results[], visualization, chart_config?, narrative, error?}`). -/
structure ChatResult where
  thinking : Option String
  sql : Option String
  results : Option (List ResultRow)
  visualization : Option Viz
  chart_config : Option ChartConfig
  narrative : Option String
  error : Option String
deriving DecidableEq, Repr

/-- A message held in the Chat page's `messages` state.  User messages only
populate `role` and `content`; assistant messages spread the fields of the
`ChatResult` over the record (Chat.jsx `aiMsg`). -/
structure Msg where
  role : Role
  content : String
  thinking : Option String
  sql : Option String
  results : Option (List ResultRow)
  visualization : Option Viz
  chart_config : Option ChartConfig
  narrative : Option String
  error : Option String
deriving DecidableEq, Repr

/-- The user message appended by `handleSend`
(`const userMsg = { role: 'user', content: messageText }`). -/
def userMsg (t : String) : Msg :=
  { role := .user, content := t, thinking := none, sql := none,
    results := none, visualization := none, chart_config := none,
    narrative := none, error := none }

/-- The assistant message built from a successful chat response
(`{ role: 'assistant', content: result.narrative || '', ...result }`). -/
def assistantMsgOfResult (r : ChatResult) : Msg :=
  { role := .assistant, content := r.narrative.getD "",
    thinking := r.thinking, sql := r.sql, results := r.results,
    visualization := r.visualization, chart_config := r.chart_config,
    narrative := r.narrative, error := r.error }

/-- The degraded assistant turn appended when `sendChatMessage` throws
(`{ role: 'assistant', content: '', error: 'Failed to get response. Please try again.', narrative: '' }`). -/
def failureMsg : Msg :=
  { role := .assistant, content := "", thinking := none, sql := none,
    results := none, visualization := none, chart_config := none,
    narrative := some "",
    error := some "Failed to get response. Please try again." }

/-! ## History construction (Chat.jsx `handleSend`) -/

/-- One turn of the history array sent to `POST /api/chat`.  The code builds
each entry as the two-field object `{ role: m.role, content: ... }`. -/
structure HistTurn where
  role : Role
  content : String
deriving DecidableEq, Repr

/-- Content selected for a history turn:
`m.role === 'user' ? m.content : (m.narrative || m.content || '')`. -/
def histContent (m : Msg) : String :=
  if m.role = .user then m.content
  else if truthyS m.narrative then m.narrative.getD "" else m.content

/-- History entry built from one stored message. -/
def histTurnOf (m : Msg) : HistTurn :=
  { role := m.role, content := histContent m }

/-- The history sent with a chat request:
`messages.map(m => ({ role: m.role, content: ... }))`. -/
def buildHistory (msgs : List Msg) : List HistTurn :=
  msgs.map histTurnOf

/-! ## The Chat page's send handler (Chat.jsx `handleSend`) -/

/-- Mutable state of the Chat component relevant to `handleSend`:
`messages`, `input`, `loading`. -/
structure ChatState where
  messages : List Msg
  input : String
  loading : Bool
deriving DecidableEq, Repr

/-- Outcome of the awaited `sendChatMessage` call: a parsed JSON body, or a
thrown error (network failure / non-OK response). -/
inductive FetchOutcome where
  | ok (r : ChatResult)
  | failed
deriving DecidableEq, Repr

/-- The text a call resolves to: `text || input.trim()` (an absent or empty
explicit argument falls back to the trimmed input field). -/
def resolveText (st : ChatState) (text : Option String) : String :=
  match text with
  | some t => if t = "" then st.input.trim else t
  | none => st.input.trim

/-- Result of running `handleSend` to completion: the final component state
and the request sent to the server, if any. -/
structure SendEffect where
  state : ChatState
  request : Option (String × List HistTurn)
deriving DecidableEq, Repr

/-- The Chat page's `handleSend`, run to completion with the given fetch
outcome.  Guard: `if (!messageText || loading) return`.  Otherwise the user
message is appended, the input cleared, the request sent with the history
built from the pre-send messages, and on resolution either the assistant
result message or the fixed failure message is appended; `loading` ends
false. -/
def handleSend (st : ChatState) (text : Option String) (outcome : FetchOutcome) : SendEffect :=
  let messageText := resolveText st text
  if messageText = "" ∨ st.loading then ⟨st, none⟩
  else
    let afterUser := st.messages ++ [userMsg messageText]
    let hist := buildHistory st.messages
    match outcome with
    | .ok r =>
        ⟨⟨afterUser ++ [assistantMsgOfResult r], "", false⟩, some (messageText, hist)⟩
    | .failed =>
        ⟨⟨afterUser ++ [failureMsg], "", false⟩, some (messageText, hist)⟩

/-! ## Rendering model of one chat message (Chat.jsx `ChatMessage`, `ResultTable`)

Each JSX conditional block is modelled as a function from the message to
what it renders (`Option`/`Bool`); `null` renders nothing. -/

/-- `ResultTable`: returns `null` when `!data || data.length === 0`;
otherwise renders a table whose headers are the keys of the first row and
whose body is every row. -/
def resultTableView (data : Option (List ResultRow)) : Option (List String × List ResultRow) :=
  match data with
  | none => none
  | some [] => none
  | some (r :: rs) => some (r.map Prod.fst, r :: rs)

/-- The table block of `ChatMessage`:
`!isUser && message.results && message.visualization === 'table' && <ResultTable .../>`.
An empty `results` array is truthy in JavaScript, so the condition passes
and `ResultTable` itself renders nothing. -/
def renderedTable (m : Msg) : Option (List String × List ResultRow) :=
  if m.role ≠ .user ∧ m.results.isSome ∧ m.visualization = some .table then
    resultTableView m.results
  else none

/-- The narrative block of `ChatMessage`: `!isUser && message.narrative`. -/
def rendersNarrative (m : Msg) : Bool :=
  m.role != .user && truthyS m.narrative

/-- The error block of `ChatMessage`: `!isUser && message.error`. -/
def rendersError (m : Msg) : Bool :=
  m.role != .user && truthyS m.error

/-! ## api.js -/

/-- A frontend HTTP request: method, path, and ordered query parameters. -/
structure ApiRequest where
  method : String
  path : String
  params : List (String × String)
deriving DecidableEq, Repr

/-- Request issued by `fetchAnomalies(limit, minZScore, hcpcsCode)`.
`numStr` stands for JavaScript `Number.prototype.toString`, applied to the
two numeric arguments; `hcpcs_code` is set only when `hcpcsCode` is truthy
(`if (hcpcsCode) params.set('hcpcs_code', hcpcsCode)`). -/
def fetchAnomaliesRequest (numStr : ℚ → String) (limit minZScore : ℚ)
    (hcpcsCode : Option String) : ApiRequest :=
  let base := [("limit", numStr limit), ("min_z_score", numStr minZScore)]
  { method := "GET", path := "/api/anomalies",
    params :=
      match hcpcsCode with
      | some c => if c = "" then base else base ++ [("hcpcs_code", c)]
      | none => base }

/-- Decimal rendering of a rational with `d` digits after the point,
mirroring `Number.prototype.toFixed(d)`: the value is scaled by `10^d`,
rounded to the nearest integer, and printed with the fraction part padded
to `d` digits.  (Ties round up, the common case of `toFixed`.) -/
def toFixedQ (q : ℚ) (d : ℕ) : String :=
  let m : ℤ := round (q * (10 : ℚ) ^ d)
  let sign := if m < 0 then "-" else ""
  let a := m.natAbs
  let base := 10 ^ d
  if d = 0 then sign ++ toString (a / base)
  else
    let frac := toString (a % base)
    sign ++ toString (a / base) ++ "." ++
      String.mk (List.replicate (d - frac.length) '0') ++ frac

/-- api.js `formatCurrency(value)`: `'$0'` for `null`/`undefined`, then the
billions / millions / thousands / plain branches, each prefixed with `$`. -/
def formatCurrency (value : Option ℚ) : String :=
  match value with
  | none => "$0"
  | some v =>
    if v ≥ 10 ^ 9 then "$" ++ toFixedQ (v / 10 ^ 9) 2 ++ "B"
    else if v ≥ 10 ^ 6 then "$" ++ toFixedQ (v / 10 ^ 6) 1 ++ "M"
    else if v ≥ 10 ^ 3 then "$" ++ toFixedQ (v / 10 ^ 3) 0 ++ "K"
    else "$" ++ toFixedQ v 2

/-! ## Trends page (frontend/src/pages/Trends.jsx) -/

/-- One point of the `/api/trends` response as consumed by the Trends page. -/
structure TrendPoint where
  claim_month : String
  total_paid : ℚ
  total_claims : ℚ
deriving DecidableEq, Repr

/-- The calendar year of a trend point: `t.claim_month.substring(0, 4)`. -/
def yearOf (t : TrendPoint) : String :=
  t.claim_month.take 4

/-- Lexicographic comparison on character lists. -/
def listCharLe : List Char → List Char → Bool
  | [], _ => true
  | _ :: _, [] => false
  | a :: as, b :: bs => if a < b then true else if b < a then false else listCharLe as bs

/-- Lexicographic string comparison; on equal-length digit strings such as
the 4-character year keys this is numeric order, which is the order in
which JavaScript enumerates integer-like object keys in `Object.values`. -/
def strLe (a b : String) : Bool :=
  listCharLe a.data b.data

/-- The distinct year keys of the `yearlyData` object, in the ascending
order JavaScript yields them. -/
def yearKeys (trends : List TrendPoint) : List String :=
  ((trends.map yearOf).dedup).insertionSort (fun a b => strLe a b = true)

/-- One aggregated entry of `yearlyData`. -/
structure YearAgg where
  year : String
  spending : ℚ
  claims : ℚ
  months : ℕ
deriving DecidableEq, Repr

/-- The accumulated entry for one year: spending and claims summed, and
`months` counting the trend points of that year. -/
def yearAgg (trends : List TrendPoint) (y : String) : YearAgg :=
  let pts := trends.filter (fun t => yearOf t == y)
  { year := y, spending := (pts.map (·.total_paid)).sum,
    claims := (pts.map (·.total_claims)).sum, months := pts.length }

/-- `yearlyArr = Object.values(yearlyData).filter(y => y.months >= 6)`. -/
def yearlyArr (trends : List TrendPoint) : List YearAgg :=
  ((yearKeys trends).map (yearAgg trends)).filter (fun a => 6 ≤ a.months)

/-- Trends.jsx `getGrowth()`: `null` when fewer than two qualifying years
exist, otherwise the percentage change in average monthly spending between
the final two entries of `yearlyArr`, with the two year labels. -/
def getGrowth (trends : List TrendPoint) : Option (ℚ × String × String) :=
  match (yearlyArr trends).reverse with
  | last :: prev :: _ =>
      some ((((last.spending / last.months) - (prev.spending / prev.months)) /
              (prev.spending / prev.months)) * 100, prev.year, last.year)
  | _ => none

/-! Independent reformulation of the quantities `getGrowth` is claimed to
compute, phrased directly over the trend list. -/

/-- Years that contain at least 6 months of trend data, ascending. -/
def qualifyingYears (trends : List TrendPoint) : List String :=
  (yearKeys trends).filter (fun y => 6 ≤ trends.countP (fun t => yearOf t == y))

/-- Average monthly spending of one calendar year: the year's summed
spending divided by the number of trend months in that year. -/
def avgMonthlySpend (trends : List TrendPoint) (y : String) : ℚ :=
  ((trends.filter (fun t => yearOf t == y)).map (·.total_paid)).sum /
    ((trends.filter (fun t => yearOf t == y)).length : ℚ)

/-- Percentage change from `a` to `b`. -/
def pctChange (a b : ℚ) : ℚ :=
  (b - a) / a * 100

/-! ## Query Guard

Modelled from the spec: the Python backend that implements the guard is not
part of this tree.  Section 4.3 and the design notes describe it as a small
formal rule set — statement count, verb whitelist, table whitelist, limit
injection — independent of any specific query dialect, which is what is
embedded here. -/

/-- Leading verb of one parsed statement of a candidate query. -/
inductive Verb where
  | select
  | insert
  | update
  | delete
  | create
  | drop
  | alter
  | truncate
deriving DecidableEq, Repr

/-- One parsed statement: its verb, the tables it references, and its
explicit row limit if it has one. -/
structure QueryStmt where
  verb : Verb
  tables : List String
  rowLimit : Option ℕ
deriving DecidableEq, Repr

/-- Modelled from the spec: the fixed whitelist of exposed relations — the
fact table plus the provider and code lookup tables. -/
def tableWhitelist : List String :=
  ["medicaid_claims", "provider_lookup", "code_lookup"]

/-- Modelled from the spec: the default row cap appended when a candidate
lacks an explicit row limit (e.g., 1000 rows). -/
def defaultRowCap : ℕ := 1000

/-- Structured rejection reasons of the guard. -/
inductive RejectReason where
  | emptyQuery
  | multipleStatements
  | writeVerb
  | unknownTable
deriving DecidableEq, Repr

/-- Guard verdict: a structured rejection, or the accepted (possibly
limit-injected) statement to execute. -/
inductive GuardOutcome where
  | rejected (r : RejectReason)
  | accepted (s : QueryStmt)
deriving DecidableEq, Repr

/-- Modelled from the spec: the Query Guard (§4.3).  A candidate is its
list of parsed statements.  Exactly one statement is allowed; it must be a
pure read; every referenced table must be whitelisted; and a missing row
limit is replaced by the default cap rather than rejected. -/
def queryGuard (stmts : List QueryStmt) : GuardOutcome :=
  match stmts with
  | [] => .rejected .emptyQuery
  | [s] =>
      if s.verb ≠ .select then .rejected .writeVerb
      else if s.tables.all (fun t => tableWhitelist.contains t) then
        .accepted { s with rowLimit := some (s.rowLimit.getD defaultRowCap) }
      else .rejected .unknownTable
  | _ :: _ :: _ => .rejected .multipleStatements

/-! ## Anomaly Detector statistics

Modelled from the spec: the Python backend is not part of this tree.
Section 4.2 defines, per code, the population mean and sample standard
deviation of the provider totals, and the z-score `(x − μ) / σ` with the
explicit policy that σ = 0 yields a z-score of 0. -/

/-- Mean of a population of provider totals. -/
def popMean (pop : List ℚ) : ℚ :=
  pop.sum / (pop.length : ℚ)

/-- Sample variance of a population of provider totals (denominator
`n − 1`); defined as 0 for populations of size at most 1. -/
def sampleVar (pop : List ℚ) : ℚ :=
  if pop.length ≤ 1 then 0
  else ((pop.map (fun x => (x - popMean pop) ^ 2)).sum) / ((pop.length : ℚ) - 1)

/-- Modelled from the spec: the z-score of one member `x` of a population,
where `sigma` is the population's sample standard deviation (the
nonnegative square root of `sampleVar`, supplied as an argument since it
need not be rational).  Policy for σ = 0: the z-score is 0. -/
def zScore (pop : List ℚ) (x sigma : ℚ) : ℚ :=
  if sigma = 0 then 0 else (x - popMean pop) / sigma

/-! ## Aggregation Service

Modelled from the spec: the Python backend is not part of this tree.
Section 4.1 specifies `overview()` and `trends()` over the fact table of
`ClaimRecord` rows, with exact numeric aggregation. -/

/-- One row of the fact table (provider × code × month granularity).
Months are encoded as naturals (e.g. `202301`) so that ascending numeric
order is chronological order. -/
structure ClaimRecord where
  billing_npi : ℕ
  servicing_npi : ℕ
  hcpcs_code : String
  claim_month : ℕ
  beneficiaries : ℕ
  claims : ℕ
  paid : ℚ
deriving DecidableEq, Repr

/-- The totals object of `overview()`. -/
structure Overview where
  total_paid : ℚ
  total_claims : ℕ
  total_providers : ℕ
  total_codes : ℕ
  total_rows : ℕ
deriving DecidableEq, Repr

/-- Modelled from the spec: `overview()` — exact totals over the whole
fact table. -/
def overview (db : List ClaimRecord) : Overview :=
  { total_paid := (db.map (·.paid)).sum,
    total_claims := (db.map (·.claims)).sum,
    total_providers := ((db.map (·.billing_npi)).dedup).length,
    total_codes := ((db.map (·.hcpcs_code)).dedup).length,
    total_rows := db.length }

/-- One point of the monthly trend series. -/
structure MonthlyTrend where
  claim_month : ℕ
  total_paid : ℚ
  total_claims : ℕ
  active_providers : ℕ
  total_beneficiaries : ℕ
deriving DecidableEq, Repr

/-- The distinct months of the dataset, ascending. -/
def monthsOf (db : List ClaimRecord) : List ℕ :=
  ((db.map (·.claim_month)).dedup).insertionSort (· ≤ ·)

/-- The trend point of one month: exact sums over that month's rows. -/
def trendOfMonth (db : List ClaimRecord) (m : ℕ) : MonthlyTrend :=
  let rows := db.filter (fun r => r.claim_month == m)
  { claim_month := m,
    total_paid := (rows.map (·.paid)).sum,
    total_claims := (rows.map (·.claims)).sum,
    active_providers := ((rows.map (·.billing_npi)).dedup).length,
    total_beneficiaries := (rows.map (·.beneficiaries)).sum }

/-- Modelled from the spec: `trends()` with no bounds — one point per
calendar month with activity, ordered by month ascending, covering the
full dataset span. -/
def trends (db : List ClaimRecord) : List MonthlyTrend :=
  (monthsOf db).map (trendOfMonth db)

/-! ## Concrete inputs used by witnesses -/

/-- A concrete assistant message whose result list is empty but whose
narrative is present. -/
def msgWit : Msg :=
  { role := .assistant, content := "No rows matched.",
    thinking := none, sql := some "SELECT 1", results := some [],
    visualization := some .table, chart_config := none,
    narrative := some "No rows matched.", error := none }

/-- A concrete trend series with six months of data in each of two years:
monthly spending 10 throughout 2023 and 20 throughout 2024. -/
def trWit : List TrendPoint :=
  [⟨"2023-01", 10, 1⟩, ⟨"2023-02", 10, 1⟩, ⟨"2023-03", 10, 1⟩,
   ⟨"2023-04", 10, 1⟩, ⟨"2023-05", 10, 1⟩, ⟨"2023-06", 10, 1⟩,
   ⟨"2024-01", 20, 1⟩, ⟨"2024-02", 20, 1⟩, ⟨"2024-03", 20, 1⟩,
   ⟨"2024-04", 20, 1⟩, ⟨"2024-05", 20, 1⟩, ⟨"2024-06", 20, 1⟩]

/-- A concrete assistant message with a query string, rows and a chart. -/
def msgHistA : Msg :=
  { role := .assistant, content := "Total spend was high.",
    thinking := none, sql := some "SELECT a", results := some [[("x", JVal.num 1)]],
    visualization := some .table, chart_config := none,
    narrative := some "Total spend was high.", error := none }

/-- The same message with a different query string, rows and chart kind. -/
def msgHistB : Msg :=
  { role := .assistant, content := "Total spend was high.",
    thinking := none, sql := some "SELECT b", results := none,
    visualization := some .number, chart_config := none,
    narrative := some "Total spend was high.", error := none }

/-! ## Theorems -/

/-- C10: the Chat page never has more than one chat request in flight — an
invocation of `handleSend` while `loading` is true, or with no explicit
text and an all-whitespace input field, returns without sending a request
and leaves the state (messages and input field included) unchanged. -/
theorem handleSend_noop (st : ChatState) (text : Option String) (outcome : FetchOutcome)
    (h : st.loading = true ∨ (text = none ∧ st.input.trim = "")) :
    handleSend st text outcome = ⟨st, none⟩ := by
  rcases h with h | ⟨ht, hi⟩
  · simp [handleSend, h]
  · subst ht
    simp [handleSend, resolveText, hi]

/-- Witness for C10 at a concrete loading state. -/
theorem handleSend_noop_witness :
    ((⟨[], "x", true⟩ : ChatState).loading = true ∨
      ((none : Option String) = none ∧ (⟨[], "x", true⟩ : ChatState).input.trim = ""))
    ∧ handleSend ⟨[], "x", true⟩ none .failed = ⟨⟨[], "x", true⟩, none⟩ :=
  ⟨Or.inl rfl, handleSend_noop ⟨[], "x", true⟩ none .failed (Or.inl rfl)⟩

/-- C4: when the request to the model service fails, `handleSend` appends
the user's message and exactly one assistant turn whose `error` field holds
the fixed try-again text and whose narrative is empty; the input is
cleared, `loading` ends false, and every previously displayed message is
unchanged (the old transcript is a literal prefix of the new one). -/
theorem chat_failure_turn (st : ChatState) (text : Option String)
    (hload : st.loading = false) (hne : resolveText st text ≠ "") :
    (handleSend st text .failed).state
      = ⟨st.messages ++ [userMsg (resolveText st text), failureMsg], "", false⟩
    ∧ failureMsg.role = .assistant
    ∧ failureMsg.error = some "Failed to get response. Please try again."
    ∧ failureMsg.narrative = some ""
    ∧ (handleSend st text .failed).state.messages.take st.messages.length = st.messages
    ∧ ([userMsg (resolveText st text), failureMsg].filter (fun m => m.role == .assistant)).length = 1 := by
  have hstate : (handleSend st text .failed).state
      = ⟨st.messages ++ [userMsg (resolveText st text), failureMsg], "", false⟩ := by
    simp [handleSend, hload, hne]
  refine ⟨hstate, rfl, rfl, rfl, ?_, ?_⟩
  · rw [hstate]
    exact List.take_left st.messages _
  · rfl

/-- Witness for C4 at a concrete pre-send state. -/
theorem chat_failure_turn_witness :
    (⟨[], "", false⟩ : ChatState).loading = false
    ∧ resolveText ⟨[], "", false⟩ (some "hello") ≠ ""
    ∧ (handleSend ⟨[], "", false⟩ (some "hello") .failed).state
        = ⟨[userMsg "hello", failureMsg], "", false⟩ := by
  refine ⟨rfl, by decide, ?_⟩
  have h := (chat_failure_turn ⟨[], "", false⟩ (some "hello") rfl (by decide)).1
  rw [h]
  decide

/-- C5: the narrative of an assistant result is rendered whenever it is
nonempty, independently of the result rows (including when the row list is
empty); an empty result renders no table and, absent an `error` field, no
error indicator. -/
theorem narrative_rendered_on_empty (m : Msg) (s : String)
    (hrole : m.role = .assistant) (hn : m.narrative = some s) (hs : s ≠ "") :
    rendersNarrative m = true
    ∧ (∀ r : Option (List ResultRow), rendersNarrative { m with results := r } = true)
    ∧ (m.results = some [] → renderedTable m = none)
    ∧ (m.error = none → rendersError m = false) := by
  refine ⟨?_, ?_, ?_, ?_⟩
  · simp [rendersNarrative, truthyS, hrole, hn, hs]
  · intro r
    simp [rendersNarrative, truthyS, hrole, hn, hs]
  · intro hr
    simp only [renderedTable, hr]
    split <;> simp [resultTableView]
  · intro he
    simp [rendersError, truthyS, he]

/-- Witness for C5 at a concrete assistant message with an empty result. -/
theorem narrative_rendered_on_empty_witness :
    (msgWit.role = Role.assistant)
    ∧ msgWit.narrative = some "No rows matched."
    ∧ "No rows matched." ≠ ""
    ∧ rendersNarrative msgWit = true
    ∧ renderedTable msgWit = none
    ∧ rendersError msgWit = false := by
  have h := narrative_rendered_on_empty msgWit "No rows matched." rfl rfl (by decide)
  exact ⟨rfl, rfl, by decide, h.1, h.2.2.1 rfl, h.2.2.2 rfl⟩

/-- C9: `formatCurrency` is total and deterministic (it is a function):
`null`/`undefined` yields `"$0"`, values at least 1e9 / 1e6 / 1e3 yield the
scaled value with 2 / 1 / 0 decimals and suffix `B` / `M` / `K`, any other
number yields the value with 2 decimals, and every output begins with `$`. -/
theorem formatCurrency_spec :
    formatCurrency none = "$0"
    ∧ (∀ v : ℚ, v ≥ 10 ^ 9 →
        formatCurrency (some v) = "$" ++ toFixedQ (v / 10 ^ 9) 2 ++ "B")
    ∧ (∀ v : ℚ, v < 10 ^ 9 → v ≥ 10 ^ 6 →
        formatCurrency (some v) = "$" ++ toFixedQ (v / 10 ^ 6) 1 ++ "M")
    ∧ (∀ v : ℚ, v < 10 ^ 6 → v ≥ 10 ^ 3 →
        formatCurrency (some v) = "$" ++ toFixedQ (v / 10 ^ 3) 0 ++ "K")
    ∧ (∀ v : ℚ, v < 10 ^ 3 →
        formatCurrency (some v) = "$" ++ toFixedQ v 2)
    ∧ (∀ ov : Option ℚ, ∃ rest : String, formatCurrency ov = "$" ++ rest) := by
  refine ⟨rfl, ?_, ?_, ?_, ?_, ?_⟩
  · intro v hv
    simp [formatCurrency, hv]
  · intro v hv9 hv6
    rw [formatCurrency, if_neg (by exact not_le.mpr hv9), if_pos hv6]
  · intro v hv6 hv3
    have hv9 : ¬ v ≥ 10 ^ 9 := not_le.mpr (hv6.trans_le (by norm_num))
    rw [formatCurrency, if_neg hv9, if_neg (not_le.mpr hv6), if_pos hv3]
  · intro v hv3
    have hv9 : ¬ v ≥ 10 ^ 9 := not_le.mpr (hv3.trans_le (by norm_num))
    have hv6 : ¬ v ≥ 10 ^ 6 := not_le.mpr (hv3.trans_le (by norm_num))
    rw [formatCurrency, if_neg hv9, if_neg hv6, if_neg (not_le.mpr hv3)]
  · intro ov
    match ov with
    | none => exact ⟨"0", rfl⟩
    | some v =>
      rw [formatCurrency]
      split
      · exact ⟨toFixedQ (v / 10 ^ 9) 2 ++ "B", String.append_assoc ..⟩
      split
      · exact ⟨toFixedQ (v / 10 ^ 6) 1 ++ "M", String.append_assoc ..⟩
      split
      · exact ⟨toFixedQ (v / 10 ^ 3) 0 ++ "K", String.append_assoc ..⟩
      · exact ⟨toFixedQ v 2, rfl⟩

/-- Witness for C9 in the thousands branch at `v = 1500`. -/
theorem formatCurrency_spec_witness :
    (1500 : ℚ) < 10 ^ 6 ∧ (1500 : ℚ) ≥ 10 ^ 3
    ∧ formatCurrency (some 1500) = "$" ++ toFixedQ (1500 / 10 ^ 3) 0 ++ "K"
    ∧ formatCurrency (some 1500) = "$2K" := by
  refine ⟨by norm_num, by norm_num, ?_, ?_⟩
  · exact formatCurrency_spec.2.2.2.1 1500 (by norm_num) (by norm_num)
  · have hr : round ((1500 : ℚ) / 10 ^ 3) = 2 := by norm_num [round_eq]
    have h2 : toFixedQ ((1500 : ℚ) / 10 ^ 3) 0 = "2" := by
      simp [toFixedQ, hr]
      decide
    rw [formatCurrency_spec.2.2.2.1 1500 (by norm_num) (by norm_num), h2]
    decide

/-- C7, counterexample: an empty-string code filter is a supplied argument,
yet JavaScript truthiness drops the `hcpcs_code` parameter, so the
parameter is not appended "if and only if a code filter argument is
supplied". -/
theorem fetchAnomalies_hcpcs_cex :
    (some "" : Option String).isSome = true
    ∧ ((fetchAnomaliesRequest (fun _ => "50") 50 5 (some "")).params.map Prod.fst)
        = ["limit", "min_z_score"] :=
  ⟨rfl, rfl⟩

/-- C7 as amended: `fetchAnomalies(limit, minZScore, hcpcsCode)` issues
`GET /api/anomalies` carrying exactly `limit` and `min_z_score`
(stringified from the numeric arguments), plus `hcpcs_code` if and only if
a non-empty code filter argument is supplied. -/
theorem fetchAnomalies_request (numStr : ℚ → String) (limit minZ : ℚ)
    (code : Option String) :
    (fetchAnomaliesRequest numStr limit minZ code).method = "GET"
    ∧ (fetchAnomaliesRequest numStr limit minZ code).path = "/api/anomalies"
    ∧ (∀ c : String, code = some c → c ≠ "" →
        (fetchAnomaliesRequest numStr limit minZ code).params
          = [("limit", numStr limit), ("min_z_score", numStr minZ), ("hcpcs_code", c)])
    ∧ ((code = none ∨ code = some "") →
        (fetchAnomaliesRequest numStr limit minZ code).params
          = [("limit", numStr limit), ("min_z_score", numStr minZ)]) := by
  refine ⟨rfl, rfl, ?_, ?_⟩
  · rintro c rfl hc
    simp [fetchAnomaliesRequest, hc]
  · rintro (rfl | rfl)
    · rfl
    · simp [fetchAnomaliesRequest]

/-- Witness for C7's amended theorem with a concrete non-empty filter. -/
theorem fetchAnomalies_request_witness :
    (some "97153" : Option String) = some "97153" ∧ "97153" ≠ ""
    ∧ (fetchAnomaliesRequest (fun _ => "5") 50 5 (some "97153")).params
        = [("limit", "5"), ("min_z_score", "5"), ("hcpcs_code", "97153")] :=
  ⟨rfl, by decide,
    (fetchAnomalies_request (fun _ => "5") 50 5 (some "97153")).2.2.1 "97153" rfl (by decide)⟩

/-- C6, counterexample: the history sent to the server does not include the
assistant turns' query string, result rows or visualization kind — two
stored assistant messages that differ in exactly those fields produce the
same history. -/
theorem history_drops_assistant_fields_cex :
    buildHistory [msgHistA] = buildHistory [msgHistB]
    ∧ msgHistA.sql ≠ msgHistB.sql
    ∧ msgHistA.results ≠ msgHistB.results
    ∧ msgHistA.visualization ≠ msgHistB.visualization := by
  refine ⟨rfl, by decide, by decide, by decide⟩

/-- C6 as amended: every history turn sent with a chat request carries
exactly the source message's role and a message text (the narrative for
assistant turns when nonempty, else the content); it depends on nothing
else, so the assistant's query string, rows, visualization kind, chart
configuration and error are not part of the history. -/
theorem history_turn_fields (m : Msg) :
    (histTurnOf m).role = m.role
    ∧ (histTurnOf m).content = histContent m
    ∧ (m.role = .assistant → truthyS m.narrative = true →
        (histTurnOf m).content = m.narrative.getD "")
    ∧ (∀ m₂ : Msg, m₂.role = m.role → m₂.content = m.content →
        m₂.narrative = m.narrative → histTurnOf m₂ = histTurnOf m)
    ∧ (∀ msgs : List Msg, buildHistory msgs = msgs.map histTurnOf) := by
  refine ⟨rfl, rfl, ?_, ?_, fun _ => rfl⟩
  · intro hrole hn
    simp [histTurnOf, histContent, hrole, hn]
  · intro m₂ hr hc hn
    simp [histTurnOf, histContent, hr, hc, hn]

/-- Witness for C6's amended theorem: two messages agreeing on role,
content and narrative but not on `sql` yield the same history turn. -/
theorem history_turn_fields_witness :
    msgHistA.role = msgHistB.role ∧ msgHistA.content = msgHistB.content
    ∧ msgHistA.narrative = msgHistB.narrative
    ∧ histTurnOf msgHistA = histTurnOf msgHistB := by
  refine ⟨rfl, rfl, rfl, ?_⟩
  exact (history_turn_fields msgHistB).2.2.2.1 msgHistA rfl rfl rfl

/-- C1: the Query Guard rejects every candidate that contains a
data-modification or data-definition verb, more than one statement, or a
reference to a table outside the fixed whitelist; it accepts a well-formed
read-only single-table query, and when the accepted query lacks an explicit
row limit it is given the default cap of 1000 rows rather than rejected. -/
theorem queryGuard_spec :
    (∀ stmts : List QueryStmt,
       ((∃ s ∈ stmts, s.verb ≠ Verb.select) ∨ 2 ≤ stmts.length ∨
        (∃ s ∈ stmts, ∃ t ∈ s.tables, tableWhitelist.contains t = false)) →
       ∃ r, queryGuard stmts = .rejected r)
    ∧ (∀ s : QueryStmt, ∀ t : String, s.verb = .select → s.tables = [t] →
        tableWhitelist.contains t = true →
        queryGuard [s] = .accepted { s with rowLimit := some (s.rowLimit.getD defaultRowCap) })
    ∧ (∀ s : QueryStmt, ∀ t : String, s.verb = .select → s.tables = [t] →
        tableWhitelist.contains t = true → s.rowLimit = none →
        queryGuard [s] = .accepted { s with rowLimit := some 1000 }) := by
  have haccept : ∀ s : QueryStmt, ∀ t : String, s.verb = .select → s.tables = [t] →
      tableWhitelist.contains t = true →
      queryGuard [s] = .accepted { s with rowLimit := some (s.rowLimit.getD defaultRowCap) } := by
    intro s t hv ht hw
    have hmem : t ∈ tableWhitelist := by simpa using hw
    simp [queryGuard, hv, ht, hmem]
  refine ⟨?_, haccept, ?_⟩
  · intro stmts hbad
    match stmts with
    | [] => exact ⟨.emptyQuery, rfl⟩
    | [s] =>
      by_cases hv : s.verb = .select
      · have htab : ∃ t ∈ s.tables, tableWhitelist.contains t = false := by
          rcases hbad with ⟨s2, hs2, hvs2⟩ | hlen | ⟨s2, hs2, ht⟩
          · simp only [List.mem_singleton] at hs2
            exact absurd (hs2 ▸ hv) hvs2
          · simp at hlen
          · simp only [List.mem_singleton] at hs2
            exact hs2 ▸ ht
        refine ⟨.unknownTable, ?_⟩
        have hall : s.tables.all (fun t => tableWhitelist.contains t) = false := by
          rcases htab with ⟨t2, htm, htf⟩
          rw [List.all_eq_false]
          exact ⟨t2, htm, by simpa using htf⟩
        have hguard : queryGuard [s]
            = if s.verb ≠ Verb.select then .rejected .writeVerb
              else if s.tables.all (fun t => tableWhitelist.contains t) then
                .accepted { s with rowLimit := some (s.rowLimit.getD defaultRowCap) }
              else .rejected .unknownTable := rfl
        rw [hguard, if_neg (by simp [hv]), if_neg ?_]
        intro hcon
        rw [hall] at hcon
        exact Bool.false_ne_true hcon
      · exact ⟨.writeVerb, by simp [queryGuard, hv]⟩
    | s1 :: s2 :: rest => exact ⟨.multipleStatements, rfl⟩
  · intro s t hv ht hw hlim
    have h := haccept s t hv ht hw
    rw [hlim] at h
    exact h

/-- Witness for C1: a read-only single-table query over the fact table with
no explicit limit is accepted with the default cap injected, and a
two-statement candidate is rejected. -/
theorem queryGuard_spec_witness :
    (⟨Verb.select, ["medicaid_claims"], none⟩ : QueryStmt).verb = Verb.select
    ∧ tableWhitelist.contains "medicaid_claims" = true
    ∧ queryGuard [⟨Verb.select, ["medicaid_claims"], none⟩]
        = .accepted ⟨Verb.select, ["medicaid_claims"], some 1000⟩
    ∧ (∃ r, queryGuard [⟨Verb.select, ["medicaid_claims"], some 10⟩,
        ⟨Verb.drop, ["medicaid_claims"], none⟩] = .rejected r) := by
  refine ⟨rfl, by decide, ?_, ?_⟩
  · exact queryGuard_spec.2.2 ⟨Verb.select, ["medicaid_claims"], none⟩
      "medicaid_claims" rfl rfl (by decide) rfl
  · exact queryGuard_spec.1 _ (Or.inr (Or.inl (by decide)))

/-- C2: in a code population whose sample standard deviation of the
provider totals is zero — all providers identical, or population size at
most 1 — the z-score assigned to every member is exactly 0.  (In this
exact-arithmetic embedding no NaN or infinity exists; the σ = 0 branch of
`zScore` returns 0 outright.) -/
theorem zScore_sigma_zero (pop : List ℚ) (x sigma : ℚ)
    (hnn : 0 ≤ sigma) (hsq : sigma ^ 2 = sampleVar pop)
    (hpop : pop.length ≤ 1 ∨ ∀ a ∈ pop, ∀ b ∈ pop, a = b) :
    sampleVar pop = 0 ∧ zScore pop x sigma = 0 := by
  have hvar : sampleVar pop = 0 := by
    rcases hpop with hlen | heq
    · simp [sampleVar, hlen]
    · by_cases hlen : pop.length ≤ 1
      · simp [sampleVar, hlen]
      · have hne : pop ≠ [] := by
          intro h
          rw [h] at hlen
          simp at hlen
        obtain ⟨c, hc⟩ : ∃ c, ∀ a ∈ pop, a = c := by
          obtain ⟨c, hcmem⟩ := List.exists_mem_of_ne_nil pop hne
          exact ⟨c, fun a ha => heq a ha c hcmem⟩
        have hmean : popMean pop = c := by
          have hsum : pop.sum = pop.length • c := List.sum_eq_card_nsmul pop c hc
          have hlpos : (pop.length : ℚ) ≠ 0 := by
            have : 0 < pop.length := List.length_pos.mpr hne
            exact_mod_cast this.ne'
          rw [popMean, hsum, nsmul_eq_mul, mul_div_cancel_left₀ _ hlpos]
        have hzero : (pop.map (fun y => (y - popMean pop) ^ 2)).sum = 0 := by
          apply List.sum_eq_zero
          intro z hz
          obtain ⟨y, hy, rfl⟩ := List.mem_map.mp hz
          rw [hmean, hc y hy, sub_self]
          ring
        simp [sampleVar, hlen, hzero]
  have hs0 : sigma = 0 := by
    have : sigma ^ 2 = 0 := by rw [hsq, hvar]
    exact pow_eq_zero_iff (by norm_num) |>.mp this
  exact ⟨hvar, by simp [zScore, hs0]⟩

/-- Witness for C2: a population of three identical provider totals has
sample variance 0, and the z-score of each member with σ = 0 is 0. -/
theorem zScore_sigma_zero_witness :
    (0 : ℚ) ≤ 0 ∧ (0 : ℚ) ^ 2 = sampleVar [5, 5, 5]
    ∧ ((([5, 5, 5] : List ℚ).length ≤ 1) ∨ ∀ a ∈ ([5, 5, 5] : List ℚ), ∀ b ∈ ([5, 5, 5] : List ℚ), a = b)
    ∧ zScore [5, 5, 5] 5 0 = 0 := by
  have hall : ∀ a ∈ ([5, 5, 5] : List ℚ), ∀ b ∈ ([5, 5, 5] : List ℚ), a = b := by
    intro a ha b hb
    fin_cases ha <;> fin_cases hb <;> rfl
  have hvar : sampleVar [5, 5, 5] = 0 :=
    (zScore_sigma_zero [5, 5, 5] 5 0 le_rfl (by simp [sampleVar, popMean]; norm_num)
      (Or.inr hall)).1
  refine ⟨le_rfl, by rw [hvar]; ring, Or.inr hall, ?_⟩
  exact (zScore_sigma_zero [5, 5, 5] 5 0 le_rfl (by rw [hvar]; ring) (Or.inr hall)).2

/-- Summing a pointwise sum of two functions over a key list splits into
two sums. -/
lemma sum_map_add (keys : List ℕ) (f g : ℕ → ℚ) :
    (keys.map (fun k => f k + g k)).sum = (keys.map f).sum + (keys.map g).sum := by
  induction keys with
  | nil => simp
  | cons a as ih => simp [ih]; ring

/-- Over a duplicate-free key list containing `k0`, the sum of the
indicator of `k0` scaled by `c` is `c`. -/
lemma sum_indicator (keys : List ℕ) (hnd : keys.Nodup) (k0 : ℕ) (hk : k0 ∈ keys) (c : ℚ) :
    (keys.map (fun k => if k0 = k then c else 0)).sum = c := by
  induction keys with
  | nil => cases hk
  | cons a as ih =>
    rcases List.mem_cons.mp hk with h | h
    · subst h
      have hnotmem : k0 ∉ as := (List.nodup_cons.mp hnd).1
      have hrest : (as.map (fun k => if k0 = k then c else 0)).sum = 0 := by
        apply List.sum_eq_zero
        intro z hz
        obtain ⟨k, hkmem, rfl⟩ := List.mem_map.mp hz
        rw [if_neg]
        intro hkk
        exact hnotmem (hkk ▸ hkmem)
      simp [hrest]
    · have hne : k0 ≠ a := by
        intro hkk
        exact (List.nodup_cons.mp hnd).1 (hkk ▸ h)
      simp only [List.map_cons, List.sum_cons, if_neg hne,
        ih (List.nodup_cons.mp hnd).2 h, zero_add]

/-- Grouping a fact table by month and summing the paid amount of each
fiber recovers the total paid amount, for any duplicate-free key list
covering every row's month. -/
lemma fiber_paid_sum (l : List ClaimRecord) (keys : List ℕ) (hnd : keys.Nodup)
    (hcov : ∀ r ∈ l, r.claim_month ∈ keys) :
    (keys.map (fun k => ((l.filter (fun r => r.claim_month == k)).map (·.paid)).sum)).sum
      = (l.map (·.paid)).sum := by
  induction l with
  | nil => simp
  | cons r rs ih =>
    have hstep : ∀ k : ℕ,
        (((r :: rs).filter (fun x => x.claim_month == k)).map (·.paid)).sum
          = (if r.claim_month = k then r.paid else 0)
            + ((rs.filter (fun x => x.claim_month == k)).map (·.paid)).sum := by
      intro k
      by_cases hk : r.claim_month = k
      · simp [List.filter_cons, hk]
      · simp [List.filter_cons, hk]
    have hmap : keys.map (fun k => (((r :: rs).filter (fun x => x.claim_month == k)).map (·.paid)).sum)
        = keys.map (fun k => (if r.claim_month = k then r.paid else 0)
            + ((rs.filter (fun x => x.claim_month == k)).map (·.paid)).sum) :=
      List.map_congr_left (fun k _ => hstep k)
    rw [hmap, sum_map_add,
      sum_indicator keys hnd r.claim_month (hcov r (List.mem_cons_self r rs)) r.paid,
      ih (fun x hx => hcov x (List.mem_cons_of_mem r hx))]
    simp

/-- C3: summing `MonthlyTrend.total_paid` over the full span returned by
`trends()` equals `Overview.total_paid` exactly — both sides are exact
rational sums over the same fact table, grouped and ungrouped. -/
theorem trends_sum_eq_overview (db : List ClaimRecord) :
    ((trends db).map (·.total_paid)).sum = (overview db).total_paid := by
  have hperm : (monthsOf db).Perm (db.map (·.claim_month)).dedup := by
    unfold monthsOf
    exact List.perm_insertionSort _ _
  have hnd : (monthsOf db).Nodup :=
    hperm.nodup_iff.mpr (List.nodup_dedup _)
  have hcov : ∀ r ∈ db, r.claim_month ∈ monthsOf db := by
    intro r hr
    rw [hperm.mem_iff, List.mem_dedup]
    exact List.mem_map_of_mem (·.claim_month) hr
  have hmap : (trends db).map (·.total_paid)
      = (monthsOf db).map
          (fun m => ((db.filter (fun r => r.claim_month == m)).map (·.paid)).sum) := by
    simp [trends, trendOfMonth, List.map_map, Function.comp]
  rw [hmap, fiber_paid_sum db (monthsOf db) hnd hcov]
  rfl

/-- The filtered yearly array is the per-year aggregate of exactly the
qualifying years. -/
lemma yearlyArr_eq (tr : List TrendPoint) :
    yearlyArr tr = (qualifyingYears tr).map (yearAgg tr) := by
  unfold yearlyArr qualifyingYears
  rw [List.filter_map]
  congr 1
  apply List.filter_congr
  intro y hy
  simp [Function.comp, yearAgg, List.countP_eq_length_filter]

/-- C8: the Trends page's year-over-year growth figure is computed only
over calendar years holding at least 6 months of trend data: `getGrowth`
is `null` exactly when fewer than two qualifying years exist, and otherwise
is the percentage change in average monthly spending (the year's summed
spending divided by its month count) between the last two qualifying
years, labelled with those two years. -/
theorem getGrowth_spec (tr : List TrendPoint) :
    (getGrowth tr = none ↔ (qualifyingYears tr).length < 2)
    ∧ (∀ ys : List String, ∀ y1 y2 : String,
        qualifyingYears tr = ys ++ [y1, y2] →
        getGrowth tr
          = some (pctChange (avgMonthlySpend tr y1) (avgMonthlySpend tr y2), y1, y2)) := by
  have hlen : (yearlyArr tr).length = (qualifyingYears tr).length := by
    rw [yearlyArr_eq]
    exact List.length_map _ _
  constructor
  · rcases hrev : (yearlyArr tr).reverse with _ | ⟨a, _ | ⟨b, rest⟩⟩
    · have h0 : (yearlyArr tr).length = 0 := by
        rw [← List.length_reverse, hrev]
        rfl
      simp [getGrowth, hrev, ← hlen, h0]
    · have h1 : (yearlyArr tr).length = 1 := by
        rw [← List.length_reverse, hrev]
        rfl
      simp [getGrowth, hrev, ← hlen, h1]
    · have h2 : (yearlyArr tr).length = rest.length + 2 := by
        rw [← List.length_reverse, hrev]
        simp
      simp [getGrowth, hrev, ← hlen, h2]
  · intro ys y1 y2 hq
    have harr : yearlyArr tr = (ys.map (yearAgg tr)) ++ [yearAgg tr y1, yearAgg tr y2] := by
      rw [yearlyArr_eq, hq]
      simp
    have hrev : (yearlyArr tr).reverse
        = yearAgg tr y2 :: yearAgg tr y1 :: (ys.map (yearAgg tr)).reverse := by
      rw [harr]
      simp
    simp only [getGrowth, hrev]
    congr 2

/-- Witness for C8: on the concrete two-year series the qualifying years
are 2023 and 2024, and the growth figure is the +100% change from average
monthly spend 10 to 20. -/
theorem getGrowth_spec_witness :
    qualifyingYears trWit = [] ++ ["2023", "2024"]
    ∧ getGrowth trWit
        = some (pctChange (avgMonthlySpend trWit "2023") (avgMonthlySpend trWit "2024"),
            "2023", "2024")
    ∧ pctChange (avgMonthlySpend trWit "2023") (avgMonthlySpend trWit "2024") = 100 := by
  have hq : qualifyingYears trWit = [] ++ ["2023", "2024"] := by decide
  have hf23 : trWit.filter (fun t => yearOf t == "2023")
      = [⟨"2023-01", 10, 1⟩, ⟨"2023-02", 10, 1⟩, ⟨"2023-03", 10, 1⟩,
         ⟨"2023-04", 10, 1⟩, ⟨"2023-05", 10, 1⟩, ⟨"2023-06", 10, 1⟩] := by decide
  have hf24 : trWit.filter (fun t => yearOf t == "2024")
      = [⟨"2024-01", 20, 1⟩, ⟨"2024-02", 20, 1⟩, ⟨"2024-03", 20, 1⟩,
         ⟨"2024-04", 20, 1⟩, ⟨"2024-05", 20, 1⟩, ⟨"2024-06", 20, 1⟩] := by decide
  have h23 : avgMonthlySpend trWit "2023" = 10 := by
    unfold avgMonthlySpend
    rw [hf23]
    norm_num
  have h24 : avgMonthlySpend trWit "2024" = 20 := by
    unfold avgMonthlySpend
    rw [hf24]
    norm_num
  refine ⟨hq, (getGrowth_spec trWit).2 [] "2023" "2024" hq, ?_⟩
  rw [h23, h24]
  norm_num [pctChange]

end MedicaidLens
